import Mathlib

/-!
Verification of the plan-output transformation and summarization engine of
the `tf-apply-gcp` GitHub Action (`src/index.js`, `runTerraform` lines 95-171).

The embedding models JSON values, the `formatAttributes` renderer, the
action-classification loop, and the summary/output phase, translated directly
from the JavaScript source.
-/

namespace TfApply

/-- A JSON value as produced by `JSON.parse`.  Numbers are modelled as
integers (all numbers appearing in the verified claims are integers);
object fields are kept in insertion order, matching the stable-key-order
assumption of the renderer. -/
inductive JsonValue where
  | null
  | bool (b : Bool)
  | num (n : Int)
  | str (s : String)
  | arr (xs : List JsonValue)
  | obj (kvs : List (String × JsonValue))

/-- Decimal digit character. -/
def digitChar (d : Nat) : Char :=
  match d with
  | 0 => '0' | 1 => '1' | 2 => '2' | 3 => '3' | 4 => '4'
  | 5 => '5' | 6 => '6' | 7 => '7' | 8 => '8' | 9 => '9'
  | _ => '*'

/-- Decimal digits of a natural number (fuel-driven so it reduces in the
kernel; the initial fuel `n+1` always suffices). -/
def natReprAux : Nat → Nat → List Char
  | 0, _ => []
  | fuel+1, n => if n < 10 then [digitChar n] else natReprAux fuel (n / 10) ++ [digitChar (n % 10)]

def natRepr (n : Nat) : List Char := natReprAux (n + 1) n

/-- Decimal rendering of an integer, as `JSON.stringify` prints integral
numbers. -/
def intRepr (i : Int) : String :=
  if i < 0 then "-" ++ String.mk (natRepr i.natAbs) else String.mk (natRepr i.natAbs)

/-- `JSON.stringify` escaping of one character inside a string literal. -/
def escChar (c : Char) : String :=
  if c = '"' then "\\\""
  else if c = '\\' then "\\\\"
  else if c = '\n' then "\\n"
  else if c = '\t' then "\\t"
  else if c = '\r' then "\\r"
  else if c = Char.ofNat 8 then "\\b"
  else if c = Char.ofNat 12 then "\\f"
  else if c.toNat < 32 then
    "\\u00" ++ String.mk [digitChar (c.toNat / 16), digitChar (c.toNat % 16)]
  else String.singleton c

/-- `JSON.stringify` of a string: double quotes around the escaped body. -/
def quoteStr (s : String) : String :=
  "\"" ++ String.join (s.data.map escChar) ++ "\""

mutual
/-- `JSON.stringify(value)` for the compact (no-spacing) form used by the
renderer's leaf branch. -/
def stringify : JsonValue → String
  | .null => "null"
  | .bool true => "true"
  | .bool false => "false"
  | .num n => intRepr n
  | .str s => quoteStr s
  | .arr xs => "[" ++ stringifyArr xs ++ "]"
  | .obj kvs => "\x7b" ++ stringifyObj kvs ++ "\x7d"

def stringifyArr : List JsonValue → String
  | [] => ""
  | [x] => stringify x
  | x :: y :: rest => stringify x ++ "," ++ stringifyArr (y :: rest)

def stringifyObj : List (String × JsonValue) → String
  | [] => ""
  | [(k, v)] => quoteStr k ++ ":" ++ stringify v
  | (k, v) :: e :: rest => quoteStr k ++ ":" ++ stringify v ++ "," ++ stringifyObj (e :: rest)
end

example : stringify (.obj [("a", .num 1), ("b", .arr [.str "x", .null])]) =
    "\x7b\"a\":1,\"b\":[\"x\",null]\x7d" := rfl

/-- `" ".repeat(indentLevel)`. -/
def indentStr (n : Nat) : String := String.mk (List.replicate n ' ')

/-- `Array.prototype.join("\n")`, as applied by `formatAttributes` to the list
of per-entry strings. -/
def joinNl : List String → String
  | [] => ""
  | [s] => s
  | s :: t :: rest => s ++ "\n" ++ joinNl (t :: rest)

mutual
/-- One entry of `formatAttributes`'s `.map` callback (src/index.js:111-118):
a plain-object value renders as `"<indent>- <key>:\n"` followed by the
recursive rendering at `indentLevel + 2`; any other value renders as the
single line `"<indent>- <key>: <JSON.stringify(value)>"`. -/
def renderEntry (indentLevel : Nat) (key : String) : JsonValue → String
  | .obj kvs =>
      indentStr indentLevel ++ "- " ++ key ++ ":\n" ++ joinNl (renderLines (indentLevel + 2) kvs)
  | v => indentStr indentLevel ++ "- " ++ key ++ ": " ++ stringify v

/-- The list of per-entry strings produced by mapping `renderEntry` over the
object's entries (the `Object.entries(attributes).map(...)` of
src/index.js:110-118). -/
def renderLines (indentLevel : Nat) : List (String × JsonValue) → List String
  | [] => []
  | (k, v) :: rest => renderEntry indentLevel k v :: renderLines indentLevel rest
end

/-- `formatAttributes` restricted to plain-object input: map the entries and
join with `"\n"` (src/index.js:109-120). -/
def formatAttributesObj (kvs : List (String × JsonValue)) (indentLevel : Nat) : String :=
  joinNl (renderLines indentLevel kvs)

/-- `Object.entries(v)` for an arbitrary value: a plain object yields its
entries, an array yields its indexed elements, a string yields its indexed
characters, numbers and booleans yield no entries, and `null` raises a
`TypeError` (modelled as `none`). -/
def jsEntries : JsonValue → Option (List (String × JsonValue))
  | .null => none
  | .obj kvs => some kvs
  | .arr xs => some (xs.enum.map (fun p => (String.mk (natRepr p.1), p.2)))
  | .str s => some (s.data.enum.map (fun p => (String.mk (natRepr p.1), JsonValue.str (String.mk [p.2]))))
  | .bool _ => some []
  | .num _ => some []

/-- `formatAttributes(attributes, indentLevel)` (src/index.js:109-120) on an
arbitrary value: `Object.entries` of the value (raising on `null`, hence
`Option`), each entry rendered and the results joined with `"\n"`. -/
def formatAttributes (attributes : JsonValue) (indentLevel : Nat) : Option String :=
  (jsEntries attributes).map (fun kvs => joinNl (renderLines indentLevel kvs))

example : formatAttributes (.obj [("name", .str "x")]) 8 = some "        - name: \"x\"" := rfl

example : formatAttributesObj [("a", .obj [("b", .num 1), ("c", .obj [("d", .num 2)])])] 2 =
    "  - a:\n    - b: 1\n    - c:\n      - d: 2" := rfl

/-- JavaScript truthiness on a JSON value: `null`, `false`, `0` and `""` are
falsy (of JSON values; `undefined`/`NaN` cannot occur in parsed JSON). -/
def isFalsy : JsonValue → Bool
  | .null => true
  | .bool b => !b
  | .num n => n == 0
  | .str s => s == ""
  | _ => false

/-- `change.change.after || {}` (src/index.js:125): an absent (`undefined`)
or otherwise falsy `after` value is replaced by the empty object. -/
def afterOrEmpty : Option JsonValue → JsonValue
  | none => .obj []
  | some v => if isFalsy v then .obj [] else v

/-- One entry of `tfJson.resource_changes`, per the shape the loop reads:
`change.address`, `change.change.actions`, `change.change.after`. -/
structure ResourceChange where
  address : String
  actions : List String
  after : Option JsonValue

/-- The rendered attribute text of one change record:
`formatAttributes(change.change.after || {}, 8)` (src/index.js:125-126).
The guarded argument is never `null`, so the render never raises and the
`getD` default is dead (see `formatAttributes_afterOrEmpty_isSome`). -/
def renderAfter (c : ResourceChange) : String :=
  (formatAttributes (afterOrEmpty c.after) 8).getD ""

/-- The `changeCategories` object (src/index.js:103-107): three buckets of
`(address, formattedAttributes)` pairs. -/
structure ChangeCategories where
  create : List (String × String)
  update : List (String × String)
  delete : List (String × String)
deriving DecidableEq

def ChangeCategories.empty : ChangeCategories := ⟨[], [], []⟩

/-- Property names every plain JavaScript object inherits from
`Object.prototype`.  For such an `action`, `changeCategories[action]` is a
truthy inherited value (a function, or `Object.prototype` for `__proto__`),
so `changeCategories[action].push(...)` raises a `TypeError`. -/
def objectProtoProps : List String :=
  ["constructor", "hasOwnProperty", "isPrototypeOf", "propertyIsEnumerable",
   "toLocaleString", "toString", "valueOf",
   "__defineGetter__", "__defineSetter__", "__lookupGetter__", "__lookupSetter__", "__proto__"]

/-- One iteration of `actions.forEach` (src/index.js:128-132):
`if (changeCategories[action]) changeCategories[action].push({address, formattedAttributes})`.
An own key (`create`/`update`/`delete`) appends the entry to that bucket; a
key inherited from `Object.prototype` is truthy but has no `.push`, raising a
`TypeError` (`none`); any other key is falsy (`undefined`) and is skipped. -/
def pushAction (entry : String × String) (cats : ChangeCategories) (action : String) :
    Option ChangeCategories :=
  if action = "create" then some { cats with create := cats.create ++ [entry] }
  else if action = "update" then some { cats with update := cats.update ++ [entry] }
  else if action = "delete" then some { cats with delete := cats.delete ++ [entry] }
  else if action ∈ objectProtoProps then none
  else some cats

/-- The `actions.forEach` loop over one record's action tags. -/
def classifyActions (entry : String × String) (cats : ChangeCategories) :
    List String → Option ChangeCategories
  | [] => some cats
  | a :: rest => (pushAction entry cats a).bind (fun cats2 => classifyActions entry cats2 rest)

/-- The `changes.forEach` loop (src/index.js:122-133): for each record,
render its `after` attributes and file it under each recognized action. -/
def classifyChanges (cats : ChangeCategories) : List ResourceChange → Option ChangeCategories
  | [] => some cats
  | c :: rest =>
      (classifyActions (c.address, renderAfter c) cats c.actions).bind
        (fun cats2 => classifyChanges cats2 rest)

/-- Classification of a whole change list, starting from empty buckets. -/
def classify (changes : List ResourceChange) : Option ChangeCategories :=
  classifyChanges ChangeCategories.empty changes

example : classify [⟨"google_storage_bucket.x", ["create"], some (.obj [("name", .str "x")])⟩] =
    some ⟨[("google_storage_bucket.x", "        - name: \"x\"")], [], []⟩ := rfl

example : classify [⟨"r", ["toString"], none⟩] = none := rfl

/-- The parsed Terraform JSON document, as the summarization reads it:
only `resource_changes` is consulted, and its absence means the empty list
(`tfJson.resource_changes || []`, src/index.js:99). -/
structure TfJson where
  resource_changes : Option (List ResourceChange)

/-- The state of the Terraform JSON output file when the summarization phase
starts: missing, present but not valid JSON, or parsed successfully. -/
inductive SourceDoc where
  | absent
  | unparseable
  | parsed (t : TfJson)

/-- `JSON.stringify` of one bucket entry `{address, formattedAttributes}`. -/
def stringifyEntry (e : String × String) : String :=
  "\x7b" ++ quoteStr "address" ++ ":" ++ quoteStr e.1 ++ ","
    ++ quoteStr "formattedAttributes" ++ ":" ++ quoteStr e.2 ++ "\x7d"

def stringifyBucket (bucket : List (String × String)) : String :=
  "[" ++ String.intercalate "," (bucket.map stringifyEntry) ++ "]"

/-- `JSON.stringify(changeCategories)` (src/index.js:164). -/
def stringifyCategories (cats : ChangeCategories) : String :=
  "\x7b" ++ quoteStr "create" ++ ":" ++ stringifyBucket cats.create ++ ","
    ++ quoteStr "update" ++ ":" ++ stringifyBucket cats.update ++ ","
    ++ quoteStr "delete" ++ ":" ++ stringifyBucket cats.delete ++ "\x7d"

/-- The `console.log` lines printed for one category when its bucket is
non-empty (src/index.js:150-160): the label line, one collapsible group per
resource, then a blank separator line. -/
def bucketLogs (label : String) (bucket : List (String × String)) : List String :=
  if bucket.length > 0 then
    (label ++ ":")
      :: bucket.flatMap (fun r => ["::group::" ++ r.1, r.2, "::endgroup::"]) ++ [""]
  else []

/-- All `console.log` lines of the summary report (src/index.js:139-160). -/
def summaryLogs (changesCount : Nat) (cats : ChangeCategories) : List String :=
  ["🔄 Terraform Apply Changes:",
   "🔍 Found " ++ String.mk (natRepr changesCount) ++ " resource changes.",
   "",
   "CREATE: " ++ String.mk (natRepr cats.create.length)
     ++ " | UPDATE: " ++ String.mk (natRepr cats.update.length)
     ++ " | DELETE: " ++ String.mk (natRepr cats.delete.length) ++ "\n"]
  ++ bucketLogs "CREATE" cats.create
  ++ bucketLogs "UPDATE" cats.update
  ++ bucketLogs "DELETE" cats.delete

/-- The summarization phase of `runTerraform` (src/index.js:95-171), from the
state of the JSON output file to the `console.log` lines and the
`core.setOutput` key/value pairs of that phase.  `Except.error` models an
exception escaping the phase: `JSON.parse` throwing on an unparseable file
(src/index.js:96 has no try/catch), or the classification loop's
`TypeError` on an action tag naming an inherited object property. -/
def summarizePhase : SourceDoc → Except String (List String × List (String × String))
  | .unparseable => .error "Unexpected token in JSON"
  | .absent =>
      .ok (["⚠️ No Terraform JSON output found."],
           [("resources_changed", "0"), ("apply_status", "success")])
  | .parsed t =>
      let changes := t.resource_changes.getD []
      match classify changes with
      | none => .error "changeCategories[action].push is not a function"
      | some cats =>
          .ok (summaryLogs changes.length cats,
               [("resources_changed", String.mk (natRepr changes.length)),
                ("change_details", stringifyCategories cats),
                ("apply_status", "success")])

/-- The phase's outputs (empty when the phase raised). -/
def phaseOutputs (r : Except String (List String × List (String × String))) :
    List (String × String) :=
  match r with
  | .ok (_, outs) => outs
  | .error _ => []

/-- The phase's console lines (empty when the phase raised). -/
def phaseLogs (r : Except String (List String × List (String × String))) : List String :=
  match r with
  | .ok (logs, _) => logs
  | .error _ => []

/-- Whether the phase raised. -/
def phaseRaises (r : Except String (List String × List (String × String))) : Bool :=
  match r with
  | .ok _ => false
  | .error _ => true

/-- The whole run around the summarization phase: an exception propagates to
`run`'s catch (src/index.js:176-185), which reports
`Terraform Apply failed: <message>` via `core.setFailed` — so on that path the
phase produced no logs and no outputs, and `apply_status` is never set. -/
def runPipeline (doc : SourceDoc) :
    List String × List (String × String) × Option String :=
  match summarizePhase doc with
  | .ok (logs, outs) => (logs, outs, none)
  | .error e => ([], [], some ("Terraform Apply failed: " ++ e))

example : summarizePhase .absent =
    .ok (["⚠️ No Terraform JSON output found."],
         [("resources_changed", "0"), ("apply_status", "success")]) := rfl

example : phaseRaises (summarizePhase .unparseable) = true := rfl

/-- The entries a change list contributes to the bucket of `tag`, in source
order: one `(address, renderedAttributes)` pair per occurrence of `tag` in a
record's `actions`, records in input order. -/
def taggedEntries (tag : String) (changes : List ResourceChange) : List (String × String) :=
  changes.flatMap
    (fun c => (c.actions.filter (fun a => a == tag)).map (fun _ => (c.address, renderAfter c)))

theorem classifyActions_eq (entry : String × String) (acts : List String) :
    ∀ cats cats', classifyActions entry cats acts = some cats' →
      cats'.create = cats.create ++ (acts.filter (fun a => a == "create")).map (fun _ => entry)
      ∧ cats'.update = cats.update ++ (acts.filter (fun a => a == "update")).map (fun _ => entry)
      ∧ cats'.delete = cats.delete ++ (acts.filter (fun a => a == "delete")).map (fun _ => entry) := by
  induction acts with
  | nil =>
      intro cats cats' h
      simp only [classifyActions, Option.some.injEq] at h
      subst h
      simp
  | cons a rest ih =>
      intro cats cats' h
      simp only [classifyActions] at h
      by_cases h1 : a = "create"
      · subst h1
        simp only [pushAction, if_pos rfl, Option.some_bind] at h
        obtain ⟨e1, e2, e3⟩ := ih _ _ h
        simp_all [List.filter_cons]
      · by_cases h2 : a = "update"
        · subst h2
          simp [pushAction] at h
          obtain ⟨e1, e2, e3⟩ := ih _ _ h
          simp_all [List.filter_cons]
        · by_cases h3 : a = "delete"
          · subst h3
            simp [pushAction] at h
            obtain ⟨e1, e2, e3⟩ := ih _ _ h
            simp_all [List.filter_cons]
          · by_cases h4 : a ∈ objectProtoProps
            · simp only [pushAction, if_neg h1, if_neg h2, if_neg h3, if_pos h4,
                Option.none_bind] at h
              exact Option.noConfusion h
            · simp only [pushAction, if_neg h1, if_neg h2, if_neg h3, if_neg h4,
                Option.some_bind] at h
              obtain ⟨e1, e2, e3⟩ := ih _ _ h
              simp_all [List.filter_cons]

theorem classifyChanges_eq (changes : List ResourceChange) :
    ∀ cats cats', classifyChanges cats changes = some cats' →
      cats'.create = cats.create ++ taggedEntries "create" changes
      ∧ cats'.update = cats.update ++ taggedEntries "update" changes
      ∧ cats'.delete = cats.delete ++ taggedEntries "delete" changes := by
  induction changes with
  | nil =>
      intro cats cats' h
      simp only [classifyChanges, Option.some.injEq] at h
      subst h
      simp [taggedEntries]
  | cons c rest ih =>
      intro cats cats' h
      simp only [classifyChanges] at h
      cases hc : classifyActions (c.address, renderAfter c) cats c.actions with
      | none => rw [hc] at h; simp at h
      | some cats1 =>
          rw [hc] at h
          simp only [Option.some_bind] at h
          obtain ⟨a1, a2, a3⟩ := classifyActions_eq _ _ _ _ hc
          obtain ⟨b1, b2, b3⟩ := ih _ _ h
          refine ⟨?_, ?_, ?_⟩ <;>
            simp [taggedEntries, b1, b2, b3, a1, a2, a3, List.flatMap_cons, List.append_assoc]

/-- Closed form of the three buckets produced by the classification loop. -/
theorem classify_eq (changes : List ResourceChange) (cats : ChangeCategories)
    (h : classify changes = some cats) :
    cats.create = taggedEntries "create" changes
    ∧ cats.update = taggedEntries "update" changes
    ∧ cats.delete = taggedEntries "delete" changes := by
  have := classifyChanges_eq changes ChangeCategories.empty cats h
  simpa [ChangeCategories.empty] using this

/-- Membership characterization of `taggedEntries`. -/
theorem mem_taggedEntries (tag : String) (changes : List ResourceChange) (a f : String) :
    (a, f) ∈ taggedEntries tag changes
      ↔ ∃ c, c ∈ changes ∧ tag ∈ c.actions ∧ c.address = a ∧ renderAfter c = f := by
  simp only [taggedEntries, List.mem_flatMap, List.mem_map, List.mem_filter, beq_iff_eq]
  constructor
  · rintro ⟨c, hc, ⟨x, ⟨hx, rfl⟩, he⟩⟩
    rw [Prod.mk.injEq] at he
    exact ⟨c, hc, hx, he.1, he.2⟩
  · rintro ⟨c, hc, hx, ha, hf⟩
    exact ⟨c, hc, ⟨tag, ⟨hx, rfl⟩, by rw [ha, hf]⟩⟩

/-- A "good" line of renderer output: nonempty and not ending in a newline. -/
def goodLine (s : String) : Prop :=
  s.data ≠ [] ∧ s.data.getLast? ≠ some '\n'

theorem digitChar_ne_nl (d : Nat) : digitChar d ≠ '\n' := by
  unfold digitChar
  split <;> decide

theorem natRepr_getLast (n : Nat) : ∃ d, (natRepr n).getLast? = some (digitChar d) := by
  unfold natRepr natReprAux
  split
  · exact ⟨n, rfl⟩
  · exact ⟨n % 10, List.getLast?_concat _⟩

theorem natRepr_ne_nil (n : Nat) : natRepr n ≠ [] := by
  obtain ⟨d, hd⟩ := natRepr_getLast n
  intro h
  rw [h] at hd
  exact Option.noConfusion hd

/-- Prepending anything to a good line keeps it good. -/
theorem goodLine_append (p s : String) (h : goodLine s) : goodLine (p ++ s) := by
  obtain ⟨h1, h2⟩ := h
  cases he : s.data.getLast? with
  | none =>
      exact absurd (List.getLast?_eq_none_iff.mp he) h1
  | some x =>
      constructor
      · rw [String.data_append]
        simp [h1]
      · rw [String.data_append, List.getLast?_append, he]
        rw [he] at h2
        exact h2

theorem goodLine_of_natRepr (p : String) (n : Nat) :
    goodLine (p ++ String.mk (natRepr n)) := by
  apply goodLine_append
  obtain ⟨d, hd⟩ := natRepr_getLast n
  refine ⟨natRepr_ne_nil n, ?_⟩
  rw [show (String.mk (natRepr n)).data = natRepr n from rfl, hd]
  intro hc
  exact digitChar_ne_nl d (Option.some.inj hc)

/-- `JSON.stringify` output is never empty and never ends in a newline
(objects end in a brace, arrays in a bracket, strings in a quote, numbers in
a digit, and the literals `null`/`true`/`false` in a letter). -/
theorem stringify_good (v : JsonValue) : goodLine (stringify v) := by
  cases v with
  | null => exact ⟨by decide, by decide⟩
  | bool b => cases b <;> exact ⟨by decide, by decide⟩
  | num n =>
      show goodLine (intRepr n)
      unfold intRepr
      split
      · exact goodLine_of_natRepr "-" n.natAbs
      · exact goodLine_of_natRepr "" n.natAbs
  | str s =>
      show goodLine (("\"" ++ String.join (s.data.map escChar)) ++ "\"")
      refine ⟨?_, ?_⟩
      · rw [String.data_append]
        simp
      · rw [String.data_append, show ("\"" : String).data = ['"'] from rfl,
          List.getLast?_concat]
        decide
  | arr xs =>
      show goodLine (("[" ++ stringifyArr xs) ++ "]")
      refine ⟨?_, ?_⟩
      · rw [String.data_append]
        simp
      · rw [String.data_append, show ("]" : String).data = [']'] from rfl,
          List.getLast?_concat]
        decide
  | obj kvs =>
      show goodLine (("\x7b" ++ stringifyObj kvs) ++ "\x7d")
      refine ⟨?_, ?_⟩
      · rw [String.data_append]
        simp
      · rw [String.data_append, show ("\x7d" : String).data = ['\x7d'] from rfl,
          List.getLast?_concat]
        decide

/-- Joining good lines with `"\n"` yields a good (in particular not
newline-terminated) block, provided there is at least one line. -/
theorem joinNl_good (l : List String) (hne : l ≠ []) (h : ∀ s ∈ l, goodLine s) :
    goodLine (joinNl l) := by
  induction l with
  | nil => exact absurd rfl hne
  | cons a rest ih =>
      cases rest with
      | nil => exact h a (List.mem_singleton.mpr rfl)
      | cons b rest' =>
          show goodLine ((a ++ "\n") ++ joinNl (b :: rest'))
          apply goodLine_append
          exact ih (by simp) (fun s hs => h s (List.mem_cons_of_mem a hs))

mutual
/-- A value that, rendered as an entry, yields a good line: any non-object,
or a nonempty object all of whose values are recursively fine.  (An empty
object value renders as `"<indent>- <key>:\n"`, the one newline-terminated
shape.) -/
def entryOk : JsonValue → Bool
  | .obj [] => false
  | .obj (e :: rest) => valuesOk (e :: rest)
  | _ => true

def valuesOk : List (String × JsonValue) → Bool
  | [] => true
  | (_, v) :: rest => entryOk v && valuesOk rest
end

mutual
theorem renderEntry_good (n : Nat) (k : String) (v : JsonValue) (h : entryOk v = true) :
    goodLine (renderEntry n k v) := by
  cases v with
  | obj kvs =>
      cases kvs with
      | nil => exact absurd h (by simp [entryOk])
      | cons e rest =>
          show goodLine ((indentStr n ++ "- " ++ k ++ ":\n")
            ++ joinNl (renderLines (n + 2) (e :: rest)))
          apply goodLine_append
          apply joinNl_good
          · simp [renderLines]
          · exact renderLines_good (n + 2) (e :: rest) (by simpa [entryOk] using h)
  | null => exact goodLine_append _ _ (stringify_good .null)
  | bool b => exact goodLine_append _ _ (stringify_good (.bool b))
  | num m => exact goodLine_append _ _ (stringify_good (.num m))
  | str s => exact goodLine_append _ _ (stringify_good (.str s))
  | arr xs => exact goodLine_append _ _ (stringify_good (.arr xs))

theorem renderLines_good (n : Nat) (kvs : List (String × JsonValue))
    (h : valuesOk kvs = true) : ∀ s ∈ renderLines n kvs, goodLine s := by
  cases kvs with
  | nil => intro s hs; simp [renderLines] at hs
  | cons e rest =>
      intro s hs
      obtain ⟨k, v⟩ := e
      simp only [valuesOk, Bool.and_eq_true] at h
      simp only [renderLines, List.mem_cons] at hs
      cases hs with
      | inl he => exact he ▸ renderEntry_good n k v h.1
      | inr ht => exact renderLines_good n rest h.2 s ht
end

/-- C1: whenever the classification loop completes, an `(address, rendered)`
entry is in bucket X exactly when some source record with that address and
rendered text has `X` in its `actions`; a record with several recognized
actions is filed in each corresponding bucket and in no bucket whose tag is
absent from its actions. -/
theorem c1_bucket_membership_iff (changes : List ResourceChange) (cats : ChangeCategories)
    (h : classify changes = some cats) (a f : String) :
    (((a, f) ∈ cats.create)
      ↔ ∃ c, c ∈ changes ∧ "create" ∈ c.actions ∧ c.address = a ∧ renderAfter c = f)
    ∧ (((a, f) ∈ cats.update)
      ↔ ∃ c, c ∈ changes ∧ "update" ∈ c.actions ∧ c.address = a ∧ renderAfter c = f)
    ∧ (((a, f) ∈ cats.delete)
      ↔ ∃ c, c ∈ changes ∧ "delete" ∈ c.actions ∧ c.address = a ∧ renderAfter c = f) := by
  obtain ⟨e1, e2, e3⟩ := classify_eq changes cats h
  exact ⟨e1 ▸ mem_taggedEntries "create" changes a f,
         e2 ▸ mem_taggedEntries "update" changes a f,
         e3 ▸ mem_taggedEntries "delete" changes a f⟩

/-- C1 witness: a record with `actions = ["delete","create"]` lands in both
the create and delete buckets and not in the update bucket. -/
theorem c1_bucket_membership_iff_witness :
    (("r", "") ∈ (⟨[("r", "")], [], [("r", "")]⟩ : ChangeCategories).create)
    ∧ (("r", "") ∉ (⟨[("r", "")], [], [("r", "")]⟩ : ChangeCategories).update) := by
  have h := c1_bucket_membership_iff [⟨"r", ["delete", "create"], none⟩]
    ⟨[("r", "")], [], [("r", "")]⟩ rfl "r" ""
  constructor
  · exact h.1.mpr ⟨⟨"r", ["delete", "create"], none⟩, by simp, by decide, rfl, rfl⟩
  · intro hm
    obtain ⟨c, hc, hu, _, _⟩ := h.2.1.mp hm
    simp only [List.mem_singleton] at hc
    subst hc
    exact absurd hu (by decide)

/-- C2: when the summarization completes, the `resources_changed` output is
the length of the input change list, regardless of how many buckets each
entry lands in. -/
theorem c2_resources_changed_count (changes : List ResourceChange) (cats : ChangeCategories)
    (h : classify changes = some cats) :
    ("resources_changed", String.mk (natRepr changes.length))
      ∈ phaseOutputs (summarizePhase (.parsed ⟨some changes⟩)) := by
  simp [summarizePhase, h, phaseOutputs]

/-- C2 witness: a replace record (`actions = ["delete","create"]`) appears in
both the delete and create buckets yet `resources_changed` is `1`. -/
theorem c2_resources_changed_count_witness :
    ("resources_changed", "1")
      ∈ phaseOutputs (summarizePhase (.parsed ⟨some [⟨"db", ["delete", "create"], none⟩]⟩))
    ∧ classify [⟨"db", ["delete", "create"], none⟩]
      = some ⟨[("db", "")], [], [("db", "")]⟩
    ∧ (⟨[("db", "")], [], [("db", "")]⟩ : ChangeCategories).create.length = 1
    ∧ (⟨[("db", "")], [], [("db", "")]⟩ : ChangeCategories).delete.length = 1 := by
  refine ⟨?_, rfl, rfl, rfl⟩
  exact c2_resources_changed_count [⟨"db", ["delete", "create"], none⟩]
    ⟨[("db", "")], [], [("db", "")]⟩ rfl

/-- C3 counterexample: with a present but unparseable document, `JSON.parse`
(src/index.js:96, not wrapped in try/catch) throws, so the summarization
raises instead of producing a zero summary — refuting the claim that this
path does not raise. -/
theorem c3_counterexample : phaseRaises (summarizePhase .unparseable) = true := rfl

/-- C3 amended: for an absent document the phase emits exactly one warning
line, sets `resources_changed` to `0` and `apply_status` to `"success"`
(but no `change_details`), and completes; for an unparseable document the
parse error propagates to the top-level handler, which marks the run failed,
and no summary logs or outputs are produced. -/
theorem c3_amended :
    summarizePhase .absent
      = .ok (["⚠️ No Terraform JSON output found."],
             [("resources_changed", "0"), ("apply_status", "success")])
    ∧ runPipeline .unparseable
      = ([], [], some "Terraform Apply failed: Unexpected token in JSON") :=
  ⟨rfl, rfl⟩

/-- C4: the renderer on `‹a ↦ ‹b ↦ 1, c ↦ ‹d ↦ 2›››` at indent level 2
produces exactly the four lines `"  - a:"`, `"    - b: 1"`, `"    - c:"`,
`"      - d: 2"` joined by newlines. -/
theorem c4_nesting :
    formatAttributes (.obj [("a", .obj [("b", .num 1), ("c", .obj [("d", .num 2)])])]) 2
      = some "  - a:\n    - b: 1\n    - c:\n      - d: 2" := rfl

/-- C5 counterexample: a sequence input is not treated as an empty mapping —
`Object.entries` enumerates its indexed elements — and a direct `null` input
makes `Object.entries` throw a `TypeError`, so the claim fails as stated. -/
theorem c5_counterexample :
    formatAttributes (.arr [.num 1]) 2 = some "  - 0: 1"
    ∧ formatAttributes (.obj []) 2 = some ""
    ∧ formatAttributes .null 2 = none :=
  ⟨rfl, rfl, rfl⟩

/-- C5 amended: the call site's `change.change.after || {}` replaces `null`
and absent values by an empty mapping, so the renderer never raises on the
guarded value and renders `null`/absent as empty; but a sequence, string,
number or boolean passed through the guard is enumerated via its
`Object.entries` (indexed entries for sequences and strings, no entries for
numbers and booleans) rather than being treated as an empty mapping, and a
direct `null` argument would raise. -/
theorem c5_amended (a : Option JsonValue) (n : Nat) :
    (formatAttributes (afterOrEmpty a) n).isSome = true
    ∧ ((a = none ∨ a = some JsonValue.null) → formatAttributes (afterOrEmpty a) n = some "") := by
  constructor
  · have hne : afterOrEmpty a ≠ JsonValue.null := by
      cases a with
      | none => simp [afterOrEmpty]
      | some v =>
          simp only [afterOrEmpty]
          split
          · simp
          · rename_i hfl
            cases v <;> simp_all [isFalsy]
    unfold formatAttributes
    cases hj : jsEntries (afterOrEmpty a) with
    | none =>
        cases hv : afterOrEmpty a <;> rw [hv] at hj <;> first
          | exact absurd hv hne
          | exact Option.noConfusion hj
    | some kvs => rfl
  · rintro (rfl | rfl) <;> rfl

/-- C5 witness: the guarded renderer succeeds on a string-valued `after` and
renders a `null`-valued `after` as the empty block. -/
theorem c5_amended_witness :
    (formatAttributes (afterOrEmpty (some (JsonValue.str "hi"))) 3).isSome = true
    ∧ formatAttributes (afterOrEmpty (some JsonValue.null)) 3 = some "" :=
  ⟨(c5_amended (some (JsonValue.str "hi")) 3).1,
   (c5_amended (some JsonValue.null) 3).2 (Or.inr rfl)⟩

/-- C6 counterexample: an action tag that names a property inherited from
`Object.prototype` is not silently ignored: `changeCategories["toString"]`
is a truthy inherited function without a `.push` method, so the
classification loop raises a `TypeError` instead of completing. -/
theorem c6_counterexample : classify [⟨"r", ["toString"], none⟩] = none := rfl

/-- C6 amended: an action tag that is neither `create`/`update`/`delete` nor
the name of a property inherited from `Object.prototype` (in particular
`"no-op"` and `"read"`) is silently ignored: deleting it from the actions
sequence leaves the classification loop's behaviour unchanged, so it appends
the record to no bucket and affects no count. -/
theorem c6_unrecognized_ignored (entry : String × String) (a : String)
    (ha1 : a ∉ ["create", "update", "delete"]) (ha2 : a ∉ objectProtoProps)
    (pre post : List String) (cats : ChangeCategories) :
    classifyActions entry cats (pre ++ a :: post) = classifyActions entry cats (pre ++ post) := by
  have h1 : a ≠ "create" := fun h => ha1 (by simp [h])
  have h2 : a ≠ "update" := fun h => ha1 (by simp [h])
  have h3 : a ≠ "delete" := fun h => ha1 (by simp [h])
  induction pre generalizing cats with
  | nil =>
      show (pushAction entry cats a).bind _ = _
      rw [show pushAction entry cats a = some cats by simp [pushAction, h1, h2, h3, ha2],
        Option.some_bind]
      rfl
  | cons p rest ih =>
      show (pushAction entry cats p).bind _ = (pushAction entry cats p).bind _
      cases pushAction entry cats p with
      | none => rfl
      | some c2 =>
          simp only [Option.some_bind]
          exact ih c2

/-- C6 witness: dropping the unrecognized tags `"no-op"` (and keeping
`"read"`, also ignored) from `["create","no-op","read"]` leaves the loop's
result unchanged; the record is filed only under `create`. -/
theorem c6_unrecognized_ignored_witness :
    classifyActions ("r", "") ChangeCategories.empty ["create", "no-op", "read"]
      = classifyActions ("r", "") ChangeCategories.empty ["create", "read"]
    ∧ classifyActions ("r", "") ChangeCategories.empty ["create", "read"]
      = some ⟨[("r", "")], [], []⟩ := by
  refine ⟨?_, rfl⟩
  exact c6_unrecognized_ignored ("r", "") "no-op" (by decide) (by decide)
    ["create"] ["read"] ChangeCategories.empty

/-- C7: when the classification loop completes, each bucket equals the
in-order flattening of the input list's contributions — one entry per
occurrence of the bucket's tag in a record's `actions`, records in source
order — so bucket order matches the relative order of records in the input. -/
theorem c7_bucket_order (changes : List ResourceChange) (cats : ChangeCategories)
    (h : classify changes = some cats) :
    cats.create = taggedEntries "create" changes
    ∧ cats.update = taggedEntries "update" changes
    ∧ cats.delete = taggedEntries "delete" changes :=
  classify_eq changes cats h

/-- C7 witness: two create records keep their source order in the create
bucket. -/
theorem c7_bucket_order_witness :
    (⟨[("a", ""), ("b", "")], [], [("b", "")]⟩ : ChangeCategories).create
      = taggedEntries "create" [⟨"a", ["create"], none⟩, ⟨"b", ["create", "delete"], none⟩]
    ∧ taggedEntries "create" [⟨"a", ["create"], none⟩, ⟨"b", ["create", "delete"], none⟩]
      = [("a", ""), ("b", "")] := by
  refine ⟨?_, rfl⟩
  exact (c7_bucket_order [⟨"a", ["create"], none⟩, ⟨"b", ["create", "delete"], none⟩]
    ⟨[("a", ""), ("b", "")], [], [("b", "")]⟩ rfl).1

/-- C8 counterexample: a mapping whose value is an empty nested mapping
renders as `"<indent>- <key>:\n"` with nothing after the newline, so the
renderer's output can end with a newline character, refuting the claim. -/
theorem c8_counterexample :
    formatAttributes (.obj [("a", .obj [])]) 2 = some "  - a:\n"
    ∧ ("  - a:\n").data.getLast? = some '\n' :=
  ⟨rfl, rfl⟩

/-- C8 amended: for every mapping input none of whose nested values is an
empty mapping, the renderer's newline-joined output does not end with a
newline character (an empty-mapping value is the one shape whose entry line
is newline-terminated). -/
theorem c8_no_trailing_newline (kvs : List (String × JsonValue)) (n : Nat)
    (h : valuesOk kvs = true) :
    ((formatAttributes (.obj kvs) n).getD "").data.getLast? ≠ some '\n' := by
  show (joinNl (renderLines n kvs)).data.getLast? ≠ some '\n'
  cases kvs with
  | nil => intro hc; exact Option.noConfusion hc
  | cons e rest =>
      obtain ⟨k, v⟩ := e
      exact (joinNl_good _ (by simp [renderLines]) (renderLines_good n ((k, v) :: rest) h)).2

/-- C8 witness: a flat one-entry mapping satisfies the side condition and its
rendering does not end with a newline. -/
theorem c8_no_trailing_newline_witness :
    valuesOk [("a", JsonValue.num 1)] = true
    ∧ ((formatAttributes (.obj [("a", JsonValue.num 1)]) 2).getD "").data.getLast?
        ≠ some '\n' :=
  ⟨rfl, c8_no_trailing_newline [("a", JsonValue.num 1)] 2 rfl⟩

/-- C9: on the single-create input, classification yields exactly one create
entry `google_storage_bucket.x` rendered as eight spaces followed by
`- name: "x"`, empty update and delete buckets, the `resources_changed`
output is `1`, and the console lines contain the
`CREATE: 1 | UPDATE: 0 | DELETE: 0` count line. -/
theorem c9_end_to_end :
    classify [⟨"google_storage_bucket.x", ["create"], some (.obj [("name", .str "x")])⟩]
      = some ⟨[("google_storage_bucket.x", "        - name: \"x\"")], [], []⟩
    ∧ ("resources_changed", "1") ∈ phaseOutputs (summarizePhase (.parsed
        ⟨some [⟨"google_storage_bucket.x", ["create"], some (.obj [("name", .str "x")])⟩]⟩))
    ∧ "CREATE: 1 | UPDATE: 0 | DELETE: 0\n" ∈ phaseLogs (summarizePhase (.parsed
        ⟨some [⟨"google_storage_bucket.x", ["create"], some (.obj [("name", .str "x")])⟩]⟩)) := by
  refine ⟨rfl, ?_, ?_⟩ <;> decide

/-- C10: with the JSON output file absent, the phase sets
`resources_changed` to `0` and `apply_status` to `"success"`, and never sets
a `change_details` output. -/
theorem c10_absent_no_change_details :
    phaseOutputs (summarizePhase .absent)
      = [("resources_changed", "0"), ("apply_status", "success")]
    ∧ "change_details" ∉ (phaseOutputs (summarizePhase .absent)).map Prod.fst :=
  ⟨rfl, by decide⟩

end TfApply
